import Mathlib

/-
Verification of the YNCA receiver module (src/ynca/receiver.py).

The embedding below translates the module into Lean definitions:

- Numeric values that the Python code keeps as floats are modelled as exact
  rationals.  Every input exercised by the theorems is a short decimal for
  which the float computations of the source and exact rational arithmetic
  agree (the divisions by the step size 0.5 and the multiples of 0.5 involved
  are exact in binary floating point, and none of the rounded quotients fall
  on a representation boundary).
- Rational division, multiplication, subtraction and absolute value are
  written with the executable helpers qdiv, qmul, qsub, qabs so that the
  theorems can be checked by evaluation; the lemmas qdiv_eq, qmul_eq,
  qsub_eq and qabs_eq prove that each helper is the corresponding field
  operation on the rationals.
- The Python round builtin rounds half to even; pyround below implements that
  rule on rationals.
- math.modf splits a float into fractional and integer parts, both carrying
  the sign of the input, and int() truncates toward zero; truncInt implements
  truncation toward zero on rationals.  Note that int(-0.0) = 0, which the
  rational model reproduces since rationals have no negative zero.
- Python dictionaries are modelled as association lists with dict assignment
  semantics: assigning to an existing key overwrites in place (keeping the
  position of the entry), assigning to a fresh key appends.
- Code that can raise an exception is modelled with Option (none = the call
  raised) or Except (error = the raised exception message).
- float(value) in the handlers is modelled by parseFloat, which accepts the
  plain decimal forms (optional sign, digits, optional point).  The Python
  builtin accepts a superset (exponents, inf, nan, surrounding whitespace,
  digit group underscores); the theorems below only rely on parseFloat being
  deterministic and on the accepted strings being a subset of what float()
  accepts.  Likewise int() on a one-character string is modelled by
  charToSceneId, accepting exactly the ASCII digits (Python also accepts
  other Unicode decimal digits; the function names of this protocol are
  ASCII).
- str.lower, str.startswith, str.endswith and len are modelled by pyLower,
  pyStartsWith, pyEndsWith and the length of the character list, which agree
  with the Python builtins on the ASCII function names this protocol uses.
- The per-zone handler cache (_handler_cache) memoises a pure lookup
  (getattr on a fixed class) and is semantically transparent, so the model
  resolves handlers directly.
- threading.Event objects are modelled as Booleans (set or not set); the
  claims under study concern which updates set them, not real-time waiting.
-/

/-! ## Executable rational helpers -/

/-- Executable division on rationals (equals the field division, see
qdiv_eq). -/
def qdiv (a b : ℚ) : ℚ := Rat.divInt (a.num * b.den) (a.den * b.num)

/-- Executable multiplication on rationals (equals the field multiplication,
see qmul_eq). -/
def qmul (a b : ℚ) : ℚ := mkRat (a.num * b.num) (a.den * b.den)

/-- Executable subtraction on rationals (equals the field subtraction, see
qsub_eq). -/
def qsub (a b : ℚ) : ℚ := Rat.divInt (a.num * b.den - b.num * a.den) (a.den * b.den)

/-- Executable absolute value on rationals (equals the lattice absolute
value, see qabs_eq). -/
def qabs (a : ℚ) : ℚ := Rat.divInt |a.num| a.den

theorem qdiv_eq (a b : ℚ) : qdiv a b = a / b := (Rat.div_def' a b).symm

theorem qmul_eq (a b : ℚ) : qmul a b = a * b := (Rat.mul_eq_mkRat a b).symm

theorem qsub_eq (a b : ℚ) : qsub a b = a - b := by
  have ha : ((a.den : ℚ)) ≠ 0 := by exact_mod_cast a.den_ne_zero
  have hb : ((b.den : ℚ)) ≠ 0 := by exact_mod_cast b.den_ne_zero
  rw [qsub, Rat.divInt_eq_div]
  conv_rhs => rw [← Rat.num_div_den a, ← Rat.num_div_den b]
  rw [div_sub_div _ _ ha hb]
  push_cast
  ring_nf

theorem qabs_eq (a : ℚ) : qabs a = |a| := by
  rcases le_or_lt 0 a with h | h
  · rw [abs_of_nonneg h, qabs, abs_of_nonneg (Rat.num_nonneg.mpr h), Rat.num_divInt_den]
  · have hn : a.num < 0 := lt_of_not_ge fun hc => absurd (Rat.num_nonneg.mp hc) (not_le.mpr h)
    rw [abs_of_neg h, qabs, abs_of_neg hn, Rat.neg_def]

/-! ## Python builtin models -/

/-- Truncation toward zero, the behaviour of Python int() on a float. -/
def truncInt (q : ℚ) : ℤ := Int.tdiv q.num (q.den : ℤ)

/-- Floor on rationals via floor division of numerator by denominator. -/
def ratFloor (q : ℚ) : ℤ := Int.fdiv q.num (q.den : ℤ)

/-- The Python round builtin: round to nearest integer, ties to even. -/
def pyround (q : ℚ) : ℤ :=
  let f := ratFloor q
  let r := qsub q (f : ℚ)
  if r < mkRat 1 2 then f
  else if mkRat 1 2 < r then f + 1
  else if f % 2 = 0 then f else f + 1

/-- Python str.lower (the function names routed through it are ASCII). -/
def pyLower (s : String) : String := String.mk (s.data.map Char.toLower)

/-- Python str.startswith. -/
def pyStartsWith (s pre : String) : Bool := pre.data.isPrefixOf s.data

/-- Python str.endswith. -/
def pyEndsWith (s post : String) : Bool := post.data.isSuffixOf s.data

/-! ## Association lists with Python dict semantics -/

/-- Association-list lookup with Python dict key semantics
(first entry with the key wins; dictInsert keeps keys unique anyway). -/
def dictLookup {κ α : Type} [DecidableEq κ] : List (κ × α) → κ → Option α
  | [], _ => none
  | (k0, v0) :: rest, k => if k0 = k then some v0 else dictLookup rest k

/-- Python dict assignment d[k] = v: overwrite in place if the key exists,
append otherwise. -/
def dictInsert {κ α : Type} [DecidableEq κ] (m : List (κ × α)) (k : κ) (v : α) :
    List (κ × α) :=
  if (dictLookup m k).isSome then
    m.map fun p => if p.1 = k then (k, v) else p
  else m ++ [(k, v)]

/-! ## The value codec -/

/-- number_to_string_with_stepsize (receiver.py lines 102-110): round the
value to the nearest multiple of the step size, split with modf, scale and
take the absolute value of the fractional part, and format both parts with
int() conversion. -/
def number_to_string_with_stepsize (value : ℚ) (decimals : ℕ) (stepsize : ℚ) :
    String :=
  let steps := pyround (qdiv value stepsize)
  let stepped_value := qmul (steps : ℚ) stepsize
  let before_the_point := truncInt stepped_value
  let after_the_point := qsub stepped_value (before_the_point : ℚ)
  let scaled := qabs (qmul after_the_point ((10 ^ decimals : ℕ) : ℚ))
  toString before_the_point ++ "." ++ toString (truncInt scaled)

/-- The Mute enumeration (receiver.py lines 113-117). -/
inductive Mute
  | on
  | att_minus_20
  | att_minus_40
  | off
deriving DecidableEq, Repr

/-- The string-to-Mute mapping of YncaZone._handle_mute
(receiver.py lines 205-213): three exact matches and a catch-all. -/
def decode_mute (value : String) : Mute :=
  if value = "Off" then Mute.off
  else if value = "Att -20dB" then Mute.att_minus_20
  else if value = "Att -40dB" then Mute.att_minus_40
  else Mute.on

/-- The Mute-to-string mapping of the muted setter (receiver.py lines
244-255): the command value sent with the MUTE put.  Note the space before
dB in the attenuation strings, absent from the strings decode_mute matches. -/
def encode_mute (value : Mute) : String :=
  if value = Mute.off then "Off"
  else if value = Mute.att_minus_40 then "Att -40 dB"
  else if value = Mute.att_minus_20 then "Att -20 dB"
  else "On"

/-- The fixed catalog of DSP sound program names (receiver.py lines 119-138). -/
def DspSoundPrograms : List String :=
  ["Hall in Munich", "Hall in Vienna", "Chamber", "Cellar Club",
   "The Roxy Theatre", "The Bottom Line", "Sports", "Action Game",
   "Roleplaying Game", "Music Video", "Standard", "Spectacle", "Sci-Fi",
   "Adventure", "Drama", "Mono Movie", "2ch Stereo", "7ch Stereo",
   "Surround Decoder"]

/-- Numeric value of a list of ASCII digits. -/
def natOfDigits (ds : List Char) : ℕ :=
  ds.foldl (fun n c => 10 * n + (c.toNat - 48)) 0

/-- Unsigned part of the float grammar: digits, optionally followed by a
point and further digits; a bare point with no digits at all is rejected.
The value i.f with k fractional digits is the rational (i * 10 ^ k + f)
divided by 10 ^ k (see parseUnsignedFloat_spec). -/
def parseUnsignedFloat (cs : List Char) : Option ℚ :=
  let intDigits := cs.takeWhile Char.isDigit
  let rest := cs.dropWhile Char.isDigit
  match rest with
  | [] => if intDigits.isEmpty then none else some (natOfDigits intDigits : ℚ)
  | '.' :: fracDigits =>
      if fracDigits.all Char.isDigit && !(intDigits.isEmpty && fracDigits.isEmpty) then
        some (Rat.divInt
          (natOfDigits intDigits * 10 ^ fracDigits.length + natOfDigits fracDigits)
          ((10 ^ fracDigits.length : ℕ) : ℤ))
      else none
  | _ => none

/-- The divInt expression in parseUnsignedFloat is the value of the decimal
string: integer part plus fraction scaled down by ten to the number of
fractional digits. -/
theorem parseUnsignedFloat_spec (i f k : ℕ) :
    (Rat.divInt (i * 10 ^ k + f) ((10 ^ k : ℕ) : ℤ) : ℚ)
      = (i : ℚ) + (f : ℚ) / ((10 : ℚ) ^ k) := by
  have hk : ((10 : ℚ) ^ k) ≠ 0 := pow_ne_zero _ (by norm_num)
  rw [Rat.divInt_eq_div]
  push_cast
  field_simp

/-- Model of the Python float() conversion used by the VOL and MAXVOL
handlers, restricted to plain decimal forms (see the header comment). -/
def parseFloat (s : String) : Option ℚ :=
  match s.data with
  | '-' :: rest => (parseUnsignedFloat rest).map Neg.neg
  | '+' :: rest => parseUnsignedFloat rest
  | cs => parseUnsignedFloat cs

/-! ## The zone state machine -/

/-- State of a YncaZone (receiver.py lines 141-156).  The initialized_event
Boolean models the threading.Event readiness barrier (set or not). -/
structure YncaZone where
  subunit : String
  name : Option String := none
  input : Option String := none
  power : Bool := false
  volume : Option ℚ := none
  max_volume : ℚ := mkRat 33 2
  mute : Option Mute := none
  dsp_sound_program : Option String := none
  scenes : List (ℕ × String) := []
  initialized_event : Bool := false
deriving DecidableEq, Repr

/-- YncaZone.__init__: fresh zone state for a subunit. -/
def initialZone (zone : String) : YncaZone :=
  { subunit := zone }

/-- The function names that resolve to an explicit handler method via
getattr(self, "_handle_" + function.lower()) (receiver.py lines 196-226). -/
def handledFunctions : List String :=
  ["inp", "vol", "maxvol", "mute", "pwr", "zonename", "soundprg"]

/-- The structural scene-name test of YncaZone.update (receiver.py line
192): length 10, starts with SCENE, ends with NAME. -/
def sceneNamePattern (function : String) : Bool :=
  function.data.length == 10 && pyStartsWith function "SCENE" && pyEndsWith function "NAME"

/-- int() applied to a one-character string (function[5:6]): succeeds exactly
on a digit character, raises otherwise. -/
def charToSceneId (c : Char) : Option ℕ :=
  if c.isDigit then some (c.toNat - 48) else none

/-- YncaZone.update (receiver.py lines 184-194) together with the handler
methods it dispatches to (lines 196-226).  none models a raised exception:
float() failing in _handle_vol or _handle_maxvol, or int() failing on the
sixth character of a function matching the scene-name pattern. -/
def YncaZone.update (z : YncaZone) (function value : String) : Option YncaZone :=
  let f := pyLower function
  if f = "inp" then some { z with input := some value }
  else if f = "vol" then (parseFloat value).map fun q => { z with volume := some q }
  else if f = "maxvol" then (parseFloat value).map fun q => { z with max_volume := q }
  else if f = "mute" then some { z with mute := some (decode_mute value) }
  else if f = "pwr" then some { z with power := value == "On" }
  else if f = "zonename" then some { z with name := some value, initialized_event := true }
  else if f = "soundprg" then some { z with dsp_sound_program := some value }
  else if sceneNamePattern function then
    match function.data.get? 5 with
    | some c => (charToSceneId c).map fun id => { z with scenes := dictInsert z.scenes id value }
    | none => none
  else some z

/-- Commands sent by an operation modelled with Except: an error raised by a
local validity check means nothing was sent, otherwise the single put of the
operation was sent. -/
def sentPuts {ε α : Type} : Except ε α → List α
  | Except.error _ => []
  | Except.ok c => [c]

/-- Whether an operation modelled with Except raised. -/
def raisesError {ε α : Type} : Except ε α → Bool
  | Except.error _ => true
  | Except.ok _ => false

/-- YncaZone.activate_scene (receiver.py lines 310-317): validity checks
before the single put; the put passes the literal template string as the
function and the scene id as the value (the template is never filled in,
as the module ships it). -/
def YncaZone.activate_scene (z : YncaZone) (scene_id : ℤ) :
    Except String (String × String × ℤ) :=
  if z.scenes.length = 0 then
    Except.error "Zone does not support scenes"
  else if scene_id ∉ ([1, 2, 3, 4] : List ℤ) then
    Except.error "Invalid scene ID, should et 1, 2, 3 or 4"
  else
    Except.ok (z.subunit, "SCENE=Scene \x7b\x7d", scene_id)

/-- The dsp_sound_program setter (receiver.py lines 302-308): catalog
membership check before the single SOUNDPRG put. -/
def YncaZone.set_dsp_sound_program (z : YncaZone) (value : String) :
    Except String (String × String × String) :=
  if value ∈ DspSoundPrograms then
    Except.ok (z.subunit, "SOUNDPRG", value)
  else
    Except.error "Soundprogram not in DspSoundPrograms"

/-! ## The discovery coordinator -/

/-- Modelled from the spec: the transport status enumeration
(src/ynca/connection.py, which defines YncaProtocolStatus, is not among the
sources; section 6 of the spec gives status one of success or failure, and
receiver.py only compares against OK). -/
inductive YncaProtocolStatus
  | ok
  | err
deriving DecidableEq, Repr

/-- An event delivered by the connection to the registered callback:
(status, subunit, function, value). -/
structure Event where
  status : YncaProtocolStatus
  subunit : String
  function : String
  value : String
deriving DecidableEq, Repr

/-- The catalog of possible zone identifiers (receiver.py line 11). -/
def all_zones : List String := ["MAIN", "ZONE2", "ZONE3", "ZONE4"]

/-- The subunit-to-input-name catalog (receiver.py lines 15-28). -/
def subunit_input_mapping : List (String × String) :=
  [("TUN", "TUNER"), ("SIRIUS", "SIRIUS"), ("IPOD", "iPod"),
   ("BT", "Bluetooth"), ("RHAP", "Rhapsody"), ("SIRIUSIR", "SIRIUS InternetRadio"),
   ("PANDORA", "Pandora"), ("NAPSTER", "Napster"), ("PC", "PC"),
   ("NETRADIO", "NET RADIO"), ("IPODUSB", "iPod (USB)"), ("UAW", "UAW")]

/-- State of the YncaReceiver (receiver.py lines 33-44).  zones_to_init
models the _zones_to_initialize attribute: some list while discovery is
collecting, none after _initialize_device sets it to None; appending to it
when it is None raises, which connection_update models by returning none. -/
structure YncaReceiver where
  modelname : Option String := none
  firmware_version : Option String := none
  initialized_event : Bool := false
  zones : List (String × YncaZone) := []
  zones_to_init : Option (List String) := some []
  inputs : List (String × String) := []
deriving DecidableEq, Repr

/-- The receiver state right after construction, before any event. -/
def initialReceiver : YncaReceiver := {}

/-- YncaReceiver._update (receiver.py lines 91-99): system-level updates. -/
def YncaReceiver.sysUpdate (r : YncaReceiver) (function value : String) :
    YncaReceiver :=
  if function = "MODELNAME" then { r with modelname := some value }
  else if function = "VERSION" then
    { r with firmware_version := some value, initialized_event := true }
  else if pyStartsWith function "INPNAME" then
    { r with inputs := dictInsert r.inputs (String.mk (function.data.drop 7)) value }
  else r

/-- YncaReceiver._connection_update (receiver.py lines 78-89): the single
event callback.  none models a raised exception, either one escaping a
zone update or the append to the discarded pending list. -/
def YncaReceiver.connection_update (r : YncaReceiver) (e : Event) :
    Option YncaReceiver :=
  if e.status = YncaProtocolStatus.ok then
    if e.subunit = "SYS" then some (r.sysUpdate e.function e.value)
    else
      match dictLookup r.zones e.subunit with
      | some z =>
          (z.update e.function e.value).map fun z2 =>
            { r with zones := dictInsert r.zones e.subunit z2 }
      | none =>
          if e.subunit ∈ all_zones then
            match r.zones_to_init with
            | some pending =>
                some { r with zones_to_init := some (pending ++ [e.subunit]) }
            | none => none
          else if e.function = "AVAIL" then
            match dictLookup subunit_input_mapping e.subunit with
            | some label => some { r with inputs := dictInsert r.inputs label label }
            | none => some r
          else some r
  else some r

/-- Deliver a list of events to the callback in order, stopping with none if
any delivery raises. -/
def runEvents (r : YncaReceiver) : List Event → Option YncaReceiver
  | [] => some r
  | e :: rest =>
      match r.connection_update e with
      | some r2 => runEvents r2 rest
      | none => none

/-- The zone materialization loop at the end of _initialize_device
(receiver.py lines 70-74): construct a zone for every pending identifier in
discovery order (a duplicate identifier constructs again and overwrites),
then discard the pending list. -/
def drainZones (r : YncaReceiver) : YncaReceiver :=
  match r.zones_to_init with
  | some pending =>
      { r with
        zones := pending.foldl (fun zs z => dictInsert zs z (initialZone z)) r.zones,
        zones_to_init := none }
  | none => r

/-- The zone identifiers for which the materialization loop will construct
(or has constructed) a Zone entity, one construction per list entry, in
order. -/
def materializations (r : YncaReceiver) : List String :=
  r.zones_to_init.getD []

/-- The subunits of the success-status events for catalog zone identifiers,
in arrival order. -/
def successZoneIds (evs : List Event) : List String :=
  (evs.filter fun e =>
    decide (e.status = YncaProtocolStatus.ok ∧ e.subunit ∈ all_zones)).map Event.subunit

/-- Deliver a list of (function, value) updates to a zone in order, stopping
with none if any dispatch raises. -/
def runZoneUpdates (z : YncaZone) : List (String × String) → Option YncaZone
  | [] => some z
  | (f, v) :: rest =>
      match z.update f v with
      | some z2 => runZoneUpdates z2 rest
      | none => none

/-! ## Association-list lemmas -/

theorem dictLookup_map_replace {κ α : Type} [DecidableEq κ] (m : List (κ × α)) (k : κ) (v : α) :
    dictLookup (m.map fun p => if p.1 = k then (k, v) else p) k
      = if (dictLookup m k).isSome then some v else none := by
  induction m with
  | nil => rfl
  | cons p rest ih =>
    obtain ⟨k0, v0⟩ := p
    rw [List.map_cons]
    by_cases hk : k0 = k
    · rw [if_pos hk]
      show (if k = k then some v else _) = _
      rw [if_pos rfl]
      show _ = if (if k0 = k then some v0 else dictLookup rest k).isSome then some v else none
      rw [if_pos hk]
      rfl
    · rw [if_neg hk]
      show (if k0 = k then some v0
          else dictLookup (rest.map fun p => if p.1 = k then (k, v) else p) k) = _
      rw [if_neg hk, ih]
      show _ = if (if k0 = k then some v0 else dictLookup rest k).isSome then some v else none
      rw [if_neg hk]

theorem dictLookup_map_replace_ne {κ α : Type} [DecidableEq κ] (m : List (κ × α)) (k z : κ)
    (v : α) (hz : z ≠ k) :
    dictLookup (m.map fun p => if p.1 = k then (k, v) else p) z = dictLookup m z := by
  induction m with
  | nil => rfl
  | cons p rest ih =>
    obtain ⟨k0, v0⟩ := p
    rw [List.map_cons]
    by_cases hk : k0 = k
    · rw [if_pos hk]
      have hne : ¬(k = z) := fun hc => hz hc.symm
      show (if k = z then some v else _) = _
      rw [if_neg hne, ih]
      show _ = if k0 = z then some v0 else dictLookup rest z
      rw [if_neg (fun hc => hne (hk.symm.trans hc))]
    · rw [if_neg hk]
      show (if k0 = z then some v0
          else dictLookup (rest.map fun p => if p.1 = k then (k, v) else p) z) = _
      rw [ih]
      rfl

theorem map_replace_of_lookup_none {κ α : Type} [DecidableEq κ] (m : List (κ × α)) (k : κ)
    (v : α) (h : dictLookup m k = none) :
    (m.map fun p => if p.1 = k then (k, v) else p) = m := by
  induction m with
  | nil => rfl
  | cons p rest ih =>
    obtain ⟨k0, v0⟩ := p
    by_cases hk : k0 = k
    · simp [dictLookup, hk] at h
    · simp only [dictLookup, hk, if_false, ite_false] at h ⊢
      simp [hk, ih h]

theorem map_replace_map_replace {κ α : Type} [DecidableEq κ] (m : List (κ × α)) (k : κ) (v : α) :
    ((m.map fun p => if p.1 = k then (k, v) else p).map fun p => if p.1 = k then (k, v) else p)
      = m.map fun p => if p.1 = k then (k, v) else p := by
  induction m with
  | nil => rfl
  | cons p rest ih =>
    obtain ⟨k0, v0⟩ := p
    by_cases hk : k0 = k <;> simp [hk, ih]

theorem dictLookup_append {κ α : Type} [DecidableEq κ] (m l : List (κ × α)) (k : κ) :
    dictLookup (m ++ l) k
      = match dictLookup m k with
        | some w => some w
        | none => dictLookup l k := by
  induction m with
  | nil => rfl
  | cons p rest ih =>
    obtain ⟨k0, v0⟩ := p
    by_cases hk : k0 = k <;> simp [dictLookup, hk, ih]

theorem dictInsert_idem {κ α : Type} [DecidableEq κ] (m : List (κ × α)) (k : κ) (v : α) :
    dictInsert (dictInsert m k v) k v = dictInsert m k v := by
  by_cases h : (dictLookup m k).isSome
  · have h1 : dictInsert m k v = m.map fun p => if p.1 = k then (k, v) else p := by
      unfold dictInsert; rw [if_pos h]
    have h2 : (dictLookup (m.map fun p => if p.1 = k then (k, v) else p) k).isSome := by
      rw [dictLookup_map_replace, if_pos h]; rfl
    rw [h1]
    unfold dictInsert
    rw [if_pos h2]
    exact map_replace_map_replace m k v
  · have h0 : dictLookup m k = none := by
      cases hd : dictLookup m k with
      | none => rfl
      | some w => rw [hd] at h; simp at h
    have h1 : dictInsert m k v = m ++ [(k, v)] := by
      unfold dictInsert; rw [if_neg h]
    have h2 : (dictLookup (m ++ [(k, v)]) k).isSome := by
      rw [dictLookup_append, h0]
      simp [dictLookup]
    rw [h1]
    unfold dictInsert
    rw [if_pos h2, List.map_append, map_replace_of_lookup_none m k v h0]
    simp

theorem isSome_dictLookup_dictInsert {κ α : Type} [DecidableEq κ] (m : List (κ × α))
    (k z : κ) (v : α) :
    (dictLookup (dictInsert m k v) z).isSome = true
      ↔ z = k ∨ (dictLookup m z).isSome = true := by
  unfold dictInsert
  by_cases h : (dictLookup m k).isSome
  · rw [if_pos h]
    by_cases hz : z = k
    · subst hz; rw [dictLookup_map_replace, if_pos h]; simp [h]
    · rw [dictLookup_map_replace_ne _ _ _ _ hz]; simp [hz]
  · rw [if_neg h, dictLookup_append]
    by_cases hz : z = k
    · subst hz
      cases hd : dictLookup m z with
      | none => simp [dictLookup]
      | some w => simp
    · cases hd : dictLookup m z with
      | none => simp [dictLookup, hz, Ne.symm hz]
      | some w => simp [hz]

theorem isSome_dictLookup_foldl (pending : List String) (m : List (String × YncaZone))
    (z : String) :
    (dictLookup (pending.foldl (fun zs id => dictInsert zs id (initialZone id)) m) z).isSome = true
      ↔ z ∈ pending ∨ (dictLookup m z).isSome = true := by
  induction pending generalizing m with
  | nil => simp
  | cons id rest ih =>
    simp only [List.foldl_cons, List.mem_cons]
    rw [ih, isSome_dictLookup_dictInsert]
    tauto

/-! ## Phase-1 discovery lemmas -/

theorem sysUpdate_zones (r : YncaReceiver) (f v : String) :
    (r.sysUpdate f v).zones = r.zones := by
  unfold YncaReceiver.sysUpdate; split_ifs <;> rfl

theorem sysUpdate_pending (r : YncaReceiver) (f v : String) :
    (r.sysUpdate f v).zones_to_init = r.zones_to_init := by
  unfold YncaReceiver.sysUpdate; split_ifs <;> rfl

theorem successZoneIds_cons (e : Event) (rest : List Event) :
    successZoneIds (e :: rest)
      = (if e.status = YncaProtocolStatus.ok ∧ e.subunit ∈ all_zones
          then [e.subunit] else []) ++ successZoneIds rest := by
  unfold successZoneIds
  rw [List.filter_cons]
  by_cases h : e.status = YncaProtocolStatus.ok ∧ e.subunit ∈ all_zones
  · simp [h]
  · simp [h]

/-- One callback delivery during phase 1 (no zone materialized yet, pending
list alive): it never raises, materializes nothing, and appends exactly the
successful catalog-zone subunits to the pending list. -/
theorem connection_update_phase1 (r : YncaReceiver) (e : Event) (l : List String)
    (hz : r.zones = []) (hp : r.zones_to_init = some l) :
    ∃ r2, r.connection_update e = some r2 ∧ r2.zones = [] ∧
      r2.zones_to_init = some (l ++ successZoneIds [e]) := by
  have hids : successZoneIds [e]
      = if e.status = YncaProtocolStatus.ok ∧ e.subunit ∈ all_zones
          then [e.subunit] else [] := by
    rw [successZoneIds_cons]; simp [successZoneIds]
  have hlk : dictLookup r.zones e.subunit = none := by rw [hz]; rfl
  by_cases hst : e.status = YncaProtocolStatus.ok
  · by_cases hsys : e.subunit = "SYS"
    · have hno : ¬(e.status = YncaProtocolStatus.ok ∧ e.subunit ∈ all_zones) := by
        intro hc
        rw [hsys] at hc
        exact absurd hc.2 (by decide)
      have hcu : r.connection_update e = some (r.sysUpdate e.function e.value) := by
        unfold YncaReceiver.connection_update
        rw [if_pos hst, if_pos hsys]
      refine ⟨_, hcu, ?_, ?_⟩
      · rw [sysUpdate_zones]; exact hz
      · rw [sysUpdate_pending, hp, hids, if_neg hno]
        simp
    · by_cases hmem : e.subunit ∈ all_zones
      · have hcu : r.connection_update e
            = some { r with zones_to_init := some (l ++ [e.subunit]) } := by
          unfold YncaReceiver.connection_update
          rw [if_pos hst, if_neg hsys]
          simp only [hlk]
          rw [if_pos hmem]
          simp only [hp]
        refine ⟨_, hcu, hz, ?_⟩
        show some (l ++ [e.subunit]) = some (l ++ successZoneIds [e])
        rw [hids, if_pos (⟨hst, hmem⟩ : e.status = YncaProtocolStatus.ok ∧ e.subunit ∈ all_zones)]
      · have hno : ¬(e.status = YncaProtocolStatus.ok ∧ e.subunit ∈ all_zones) :=
          fun hc => hmem hc.2
        by_cases hav : e.function = "AVAIL"
        · cases hlk2 : dictLookup subunit_input_mapping e.subunit with
          | some label =>
              have hcu : r.connection_update e
                  = some { r with inputs := dictInsert r.inputs label label } := by
                unfold YncaReceiver.connection_update
                rw [if_pos hst, if_neg hsys]
                simp only [hlk]
                rw [if_neg hmem, if_pos hav]
                simp only [hlk2]
              refine ⟨_, hcu, hz, ?_⟩
              show r.zones_to_init = some (l ++ successZoneIds [e])
              rw [hp, hids, if_neg hno]
              simp
          | none =>
              have hcu : r.connection_update e = some r := by
                unfold YncaReceiver.connection_update
                rw [if_pos hst, if_neg hsys]
                simp only [hlk]
                rw [if_neg hmem, if_pos hav]
                simp only [hlk2]
              refine ⟨_, hcu, hz, ?_⟩
              rw [hp, hids, if_neg hno]
              simp
        · have hcu : r.connection_update e = some r := by
            unfold YncaReceiver.connection_update
            rw [if_pos hst, if_neg hsys]
            simp only [hlk]
            rw [if_neg hmem, if_neg hav]
          refine ⟨_, hcu, hz, ?_⟩
          rw [hp, hids, if_neg hno]
          simp
  · have hcu : r.connection_update e = some r := by
      unfold YncaReceiver.connection_update
      rw [if_neg hst]
    refine ⟨_, hcu, hz, ?_⟩
    rw [hp, hids, if_neg fun hc => hst hc.1]
    simp

theorem successZoneIds_append (evs1 evs2 : List Event) :
    successZoneIds (evs1 ++ evs2) = successZoneIds evs1 ++ successZoneIds evs2 := by
  unfold successZoneIds
  rw [List.filter_append, List.map_append]

/-- Running any event list from a phase-1 state never raises, keeps the zone
mapping empty, and accumulates exactly the successful catalog-zone subunits
in arrival order. -/
theorem runEvents_phase1 (evs : List Event) :
    ∀ (r : YncaReceiver) (l : List String), r.zones = [] → r.zones_to_init = some l →
    ∃ r2, runEvents r evs = some r2 ∧ r2.zones = [] ∧
      r2.zones_to_init = some (l ++ successZoneIds evs) := by
  induction evs with
  | nil =>
      intro r l hz hp
      exact ⟨r, rfl, hz, by rw [hp]; simp [successZoneIds]⟩
  | cons e rest ih =>
      intro r l hz hp
      obtain ⟨r1, hcu, hz1, hp1⟩ := connection_update_phase1 r e l hz hp
      obtain ⟨r2, hrun, hz2, hp2⟩ := ih r1 (l ++ successZoneIds [e]) hz1 hp1
      refine ⟨r2, ?_, hz2, ?_⟩
      · show (match r.connection_update e with
          | some rr => runEvents rr rest
          | none => none) = some r2
        rw [hcu]
        exact hrun
      · rw [hp2]
        have : e :: rest = [e] ++ rest := rfl
        rw [this, successZoneIds_append, List.append_assoc]

/-! ## Zone dispatch lemmas -/

/-- One dispatched update releases the readiness barrier exactly when it is
the display-name update: after any successful dispatch the barrier is set
iff it was already set or the function routed to the ZONENAME handler. -/
theorem update_initialized_event (z : YncaZone) (f v : String) (z2 : YncaZone)
    (h : z.update f v = some z2) :
    (z2.initialized_event = true ↔ (z.initialized_event = true ∨ pyLower f = "zonename")) := by
  simp only [YncaZone.update] at h
  split_ifs at h with h1 h2 h3 h4 h5 h6 h7 h8
  · injection h with h2
    subst h2
    simp [h1]
  · cases hp : parseFloat v with
    | none => rw [hp] at h; simp at h
    | some q =>
        rw [hp] at h
        injection h with h3
        subst h3
        simp [h2]
  · cases hp : parseFloat v with
    | none => rw [hp] at h; simp at h
    | some q =>
        rw [hp] at h
        injection h with h4
        subst h4
        simp [h3]
  · injection h with h5
    subst h5
    simp [h4]
  · injection h with h6
    subst h6
    simp [h5]
  · injection h with h7
    subst h7
    simp [h6]
  · injection h with h8
    subst h8
    simp [h7]
  · cases hg : f.data.get? 5 with
    | none =>
        simp only [hg] at h
        exact Option.noConfusion h
    | some c =>
        simp only [hg] at h
        cases hc : charToSceneId c with
        | none => rw [hc] at h; simp at h
        | some id =>
            rw [hc] at h
            injection h with h9
            subst h9
            simp [h6]
  · injection h with h9
    subst h9
    simp [h6]

/-- Claim helper: dispatching an update twice takes the same branch and
rewrites the same field to the same value. -/
theorem update_twice (z : YncaZone) (f v : String) (z2 : YncaZone)
    (h : z.update f v = some z2) : z2.update f v = some z2 := by
  simp only [YncaZone.update] at h ⊢
  split_ifs at h ⊢ with h1 h2 h3 h4 h5 h6 h7 h8
  · injection h with h2
    subst h2
    rfl
  · cases hp : parseFloat v with
    | none => rw [hp] at h; simp at h
    | some q =>
        rw [hp] at h
        injection h with h3
        subst h3
        rfl
  · cases hp : parseFloat v with
    | none => rw [hp] at h; simp at h
    | some q =>
        rw [hp] at h
        injection h with h4
        subst h4
        rfl
  · injection h with h5
    subst h5
    rfl
  · injection h with h6
    subst h6
    rfl
  · injection h with h7
    subst h7
    rfl
  · injection h with h8
    subst h8
    rfl
  · cases hg : f.data.get? 5 with
    | none =>
        simp only [hg] at h
        exact Option.noConfusion h
    | some c =>
        simp only [hg] at h ⊢
        cases hc : charToSceneId c with
        | none => rw [hc] at h; simp at h
        | some id =>
            rw [hc] at h
            injection h with h9
            subst h9
            show some _ = some _
            simp only [dictInsert_idem]
  · injection h with h9
    subst h9
    rfl

/-! ## Claims -/

/-- Claim C1 (amended): for every event sequence delivered during discovery,
a zone identifier is a key of the zone mapping after the drain iff a
success-status event for it arrived (nothing being materialized during the
collection phase), the construction order equals the arrival order of the
successful replies, and, provided at most one success event arrives per
identifier, exactly one Zone entity is constructed per discovered
identifier.  Without that proviso the loop constructs once per success
event, see the counterexample. -/
theorem zone_discovery_characterization (evs : List Event) :
    ∃ r, runEvents initialReceiver evs = some r ∧
      materializations r = successZoneIds evs ∧
      (∀ zid, (dictLookup (drainZones r).zones zid).isSome = true
        ↔ zid ∈ successZoneIds evs) ∧
      ((successZoneIds evs).Nodup →
        ∀ zid, zid ∈ successZoneIds evs → (materializations r).count zid = 1) := by
  obtain ⟨r, hrun, hz, hp⟩ := runEvents_phase1 evs initialReceiver [] rfl rfl
  rw [List.nil_append] at hp
  have hmat : materializations r = successZoneIds evs := by
    simp [materializations, hp]
  refine ⟨r, hrun, hmat, ?_, ?_⟩
  · intro zid
    unfold drainZones
    simp only [hp]
    rw [hz, isSome_dictLookup_foldl]
    simp [dictLookup]
  · intro hnd zid hmem
    rw [hmat]
    exact List.count_eq_one_of_mem hnd hmem

theorem zone_discovery_characterization_witness :
    ∃ r, runEvents initialReceiver
        [⟨YncaProtocolStatus.ok, "MAIN", "AVAIL", "Ready"⟩,
         ⟨YncaProtocolStatus.ok, "ZONE2", "AVAIL", "Ready"⟩] = some r ∧
      materializations r = ["MAIN", "ZONE2"] ∧
      (dictLookup (drainZones r).zones "MAIN").isSome = true ∧
      (materializations r).count "MAIN" = 1 := by
  obtain ⟨r, h1, h2, h3, h4⟩ := zone_discovery_characterization
    [⟨YncaProtocolStatus.ok, "MAIN", "AVAIL", "Ready"⟩,
     ⟨YncaProtocolStatus.ok, "ZONE2", "AVAIL", "Ready"⟩]
  have hids : successZoneIds
      [⟨YncaProtocolStatus.ok, "MAIN", "AVAIL", "Ready"⟩,
       ⟨YncaProtocolStatus.ok, "ZONE2", "AVAIL", "Ready"⟩] = ["MAIN", "ZONE2"] := by decide
  refine ⟨r, h1, by rw [h2, hids], (h3 "MAIN").mpr (by rw [hids]; decide), ?_⟩
  exact h4 (by rw [hids]; decide) "MAIN" (by rw [hids]; decide)

/-- Claim C1 counterexample: two success events for MAIN both arrive while
MAIN is unmaterialized, and the drain loop then constructs a Zone for MAIN
twice, refuting that exactly one Zone entity is materialized per
identifier. -/
theorem discovery_duplicate_probe_counterexample :
    (runEvents initialReceiver
        [⟨YncaProtocolStatus.ok, "MAIN", "AVAIL", "Ready"⟩,
         ⟨YncaProtocolStatus.ok, "MAIN", "AVAIL", "Ready"⟩]).map materializations
      = some ["MAIN", "MAIN"] := by decide

/-- Claim C2 (confirmed): for every sequence of updates dispatched to a
zone, the readiness barrier ends up released iff it was already released or
some update in the sequence routed to the ZONENAME handler, regardless of
the order of the other updates. -/
theorem zone_readiness_barrier (updates : List (String × String)) :
    ∀ z z2 : YncaZone, runZoneUpdates z updates = some z2 →
      (z2.initialized_event = true
        ↔ (z.initialized_event = true ∨ ∃ p ∈ updates, pyLower p.1 = "zonename")) := by
  induction updates with
  | nil =>
      intro z z2 h
      injection h with h2
      subst h2
      simp
  | cons u rest ih =>
      intro z z2 h
      obtain ⟨f, v⟩ := u
      simp only [runZoneUpdates] at h
      cases hu : z.update f v with
      | none => rw [hu] at h; exact Option.noConfusion h
      | some z1 =>
          simp only [hu] at h
          have hrest := ih z1 z2 h
          have hstep := update_initialized_event z f v z1 hu
          rw [hrest, hstep]
          constructor
          · rintro ((hz | hf) | ⟨p, hp, hpz⟩)
            · exact Or.inl hz
            · exact Or.inr ⟨(f, v), List.mem_cons_self _ _, hf⟩
            · exact Or.inr ⟨p, List.mem_cons_of_mem _ hp, hpz⟩
          · rintro (hz | ⟨p, hp, hpz⟩)
            · exact Or.inl (Or.inl hz)
            · rcases List.mem_cons.mp hp with rfl | hp2
              · exact Or.inl (Or.inr hpz)
              · exact Or.inr ⟨p, hp2, hpz⟩

theorem zone_readiness_barrier_witness :
    (({ initialZone "MAIN" with
        volume := some (mkRat 21 2),
        name := some "Living Room",
        initialized_event := true } : YncaZone).initialized_event = true)
      ↔ (((initialZone "MAIN").initialized_event = true) ∨
          ∃ p ∈ ([("VOL", "10.5"), ("ZONENAME", "Living Room")] : List (String × String)),
            pyLower p.1 = "zonename") :=
  zone_readiness_barrier [("VOL", "10.5"), ("ZONENAME", "Living Room")]
    (initialZone "MAIN") _ (by decide)

/-- Claim C3 (code bug): the stepped-value encoder with decimals 1 and step
size one half reproduces the three spec examples, but the general clause
that the integer part carries the sign fails: for value -0.3 the rounded
stepped value is -0.5, whose integer part -0.0 converts through int() to
the unsigned 0, so the encoder returns "0.5" instead of "-0.5". -/
theorem number_to_string_with_stepsize_behaviour :
    number_to_string_with_stepsize (mkRat (-203) 10) 1 (mkRat 1 2) = "-20.5" ∧
    number_to_string_with_stepsize (mkRat 24 100) 1 (mkRat 1 2) = "0.0" ∧
    number_to_string_with_stepsize (mkRat 326 100) 1 (mkRat 1 2) = "3.5" ∧
    number_to_string_with_stepsize (mkRat (-3) 10) 1 (mkRat 1 2) = "0.5" := by
  exact ⟨by decide, by decide, by decide, by decide⟩

/-- Claim C4 (confirmed): the mute decoder is total, maps the three exact
strings as specified, every other string to fully muted, and the MUTE
dispatch never fails and always sets the mute state. -/
theorem decode_mute_total :
    decode_mute "Off" = Mute.off ∧
    decode_mute "Att -20dB" = Mute.att_minus_20 ∧
    decode_mute "Att -40dB" = Mute.att_minus_40 ∧
    (∀ s : String, s ≠ "Off" → s ≠ "Att -20dB" → s ≠ "Att -40dB"
      → decode_mute s = Mute.on) ∧
    (∀ (z : YncaZone) (v : String),
      z.update "MUTE" v = some { z with mute := some (decode_mute v) }) := by
  refine ⟨by decide, by decide, by decide, ?_, ?_⟩
  · intro s h1 h2 h3
    unfold decode_mute
    rw [if_neg h1, if_neg h2, if_neg h3]
  · intro z v
    rfl

theorem decode_mute_total_witness :
    decode_mute "anything else" = Mute.on ∧
      (initialZone "MAIN").update "MUTE" "Att -20 dB"
        = some { initialZone "MAIN" with mute := some (decode_mute "Att -20 dB") } :=
  ⟨decode_mute_total.2.2.2.1 "anything else" (by decide) (by decide) (by decide),
   decode_mute_total.2.2.2.2 (initialZone "MAIN") "Att -20 dB"⟩

/-- Claim C5 counterexample: decoding the wire string transmitted for the
minus-20 attenuation level does not give that level back (the encoder
writes a space before dB that the decoder does not match). -/
theorem mute_roundtrip_counterexample :
    decode_mute (encode_mute Mute.att_minus_20) ≠ Mute.att_minus_20 := by decide

/-- Claim C5 (amended): the mute encode-decode round trip holds for the off
and on levels only; for both attenuation levels the transmitted string
falls into the decoder catch-all and decodes to fully muted. -/
theorem mute_roundtrip_partial :
    decode_mute (encode_mute Mute.off) = Mute.off ∧
    decode_mute (encode_mute Mute.on) = Mute.on ∧
    decode_mute (encode_mute Mute.att_minus_20) = Mute.on ∧
    decode_mute (encode_mute Mute.att_minus_40) = Mute.on := by decide

/-- Claim C6 counterexample: dispatch is not total: the function SCENEXNAME
matches the structural scene pattern but its sixth character is not a
digit, so int() raises and the dispatch fails instead of updating the scene
mapping or ignoring the event. -/
theorem zone_update_not_total_counterexample :
    (initialZone "MAIN").update "SCENEXNAME" "Cinema" = none := by decide

/-- Claim C6 (amended): dispatch never fails provided that values routed to
the volume handlers parse as floats and that a pattern-matching scene name
has a digit sixth character; under those conditions an update with no
handler and no pattern match is silently ignored with no state change. -/
theorem zone_update_total_under_conditions (z : YncaZone) (f v : String)
    (hvol : (pyLower f = "vol" ∨ pyLower f = "maxvol") → (parseFloat v).isSome = true)
    (hscene : sceneNamePattern f = true → pyLower f ∉ handledFunctions →
      ((f.data.get? 5).bind charToSceneId).isSome = true) :
    (z.update f v).isSome = true ∧
      (pyLower f ∉ handledFunctions → sceneNamePattern f = false → z.update f v = some z) := by
  simp only [YncaZone.update]
  split_ifs with h1 h2 h3 h4 h5 h6 h7 h8
  · exact ⟨rfl, fun hn _ => absurd (by rw [h1]; decide) hn⟩
  · cases hp : parseFloat v with
    | none =>
        have hx := hvol (Or.inl h2)
        rw [hp] at hx
        exact absurd hx (by decide)
    | some q => exact ⟨rfl, fun hn _ => absurd (by rw [h2]; decide) hn⟩
  · cases hp : parseFloat v with
    | none =>
        have hx := hvol (Or.inr h3)
        rw [hp] at hx
        exact absurd hx (by decide)
    | some q => exact ⟨rfl, fun hn _ => absurd (by rw [h3]; decide) hn⟩
  · exact ⟨rfl, fun hn _ => absurd (by rw [h4]; decide) hn⟩
  · exact ⟨rfl, fun hn _ => absurd (by rw [h5]; decide) hn⟩
  · exact ⟨rfl, fun hn _ => absurd (by rw [h6]; decide) hn⟩
  · exact ⟨rfl, fun hn _ => absurd (by rw [h7]; decide) hn⟩
  · have hnot : pyLower f ∉ handledFunctions := by
      intro hmem
      simp only [handledFunctions, List.mem_cons, List.not_mem_nil, or_false] at hmem
      rcases hmem with h | h | h | h | h | h | h
      exacts [h1 h, h2 h, h3 h, h4 h, h5 h, h6 h, h7 h]
    have hid := hscene h8 hnot
    cases hg : f.data.get? 5 with
    | none =>
        rw [hg] at hid
        exact absurd hid (by decide)
    | some c =>
        rw [hg] at hid
        have hid2 : (charToSceneId c).isSome = true := hid
        cases hc : charToSceneId c with
        | none =>
            rw [hc] at hid2
            exact absurd hid2 (by decide)
        | some id =>
            refine ⟨?_, fun _ hpat => Bool.noConfusion (h8.symm.trans hpat)⟩
            simp [hc]
  · exact ⟨rfl, fun _ _ => rfl⟩

theorem zone_update_total_under_conditions_witness :
    ((initialZone "MAIN").update "PWR" "On").isSome = true ∧
      (initialZone "MAIN").update "UNKNOWNFN" "x" = some (initialZone "MAIN") :=
  ⟨(zone_update_total_under_conditions (initialZone "MAIN") "PWR" "On"
      (by decide) (by decide)).1,
   (zone_update_total_under_conditions (initialZone "MAIN") "UNKNOWNFN" "x"
      (by decide) (by decide)).2 (by decide) (by decide)⟩

/-- Claim C7 (confirmed): activate_scene raises on a zone with no known
scenes and on a slot outside one to four, and in those cases no command is
sent. -/
theorem activate_scene_invalid_argument (z : YncaZone) (slot : ℤ)
    (h : z.scenes = [] ∨ slot ∉ ([1, 2, 3, 4] : List ℤ)) :
    raisesError (z.activate_scene slot) = true ∧
      sentPuts (z.activate_scene slot) = [] := by
  unfold YncaZone.activate_scene
  rcases h with h | h
  · rw [h]
    simp [raisesError, sentPuts]
  · by_cases h0 : z.scenes.length = 0
    · simp [h0, raisesError, sentPuts]
    · simp [h0, h, raisesError, sentPuts]

theorem activate_scene_invalid_argument_witness :
    raisesError ((initialZone "MAIN").activate_scene 1) = true ∧
      raisesError (({ initialZone "MAIN" with
        scenes := [(1, "SceneA")] } : YncaZone).activate_scene 5) = true ∧
      sentPuts (({ initialZone "MAIN" with
        scenes := [(1, "SceneA")] } : YncaZone).activate_scene 5) = [] :=
  ⟨(activate_scene_invalid_argument (initialZone "MAIN") 1 (Or.inl rfl)).1,
   (activate_scene_invalid_argument _ 5 (Or.inr (by decide))).1,
   (activate_scene_invalid_argument _ 5 (Or.inr (by decide))).2⟩

/-- Claim C8 (confirmed): setting the sound program raises iff the name is
not in the fixed catalog; on raise nothing is sent, on success exactly one
SOUNDPRG command carrying the name is sent. -/
theorem set_sound_program_validation (z : YncaZone) (name : String) :
    (raisesError (z.set_dsp_sound_program name) = true ↔ name ∉ DspSoundPrograms) ∧
      (name ∉ DspSoundPrograms → sentPuts (z.set_dsp_sound_program name) = []) ∧
      (name ∈ DspSoundPrograms →
        sentPuts (z.set_dsp_sound_program name) = [(z.subunit, "SOUNDPRG", name)]) := by
  by_cases hmem : name ∈ DspSoundPrograms
  · simp [YncaZone.set_dsp_sound_program, hmem, raisesError, sentPuts]
  · simp [YncaZone.set_dsp_sound_program, hmem, raisesError, sentPuts]

theorem set_sound_program_validation_witness :
    sentPuts ((initialZone "MAIN").set_dsp_sound_program "Standard")
        = [((initialZone "MAIN").subunit, "SOUNDPRG", "Standard")] ∧
      raisesError ((initialZone "MAIN").set_dsp_sound_program "Bogus Program") = true ∧
      sentPuts ((initialZone "MAIN").set_dsp_sound_program "Bogus Program") = [] :=
  ⟨(set_sound_program_validation (initialZone "MAIN") "Standard").2.2 (by decide),
   (set_sound_program_validation (initialZone "MAIN") "Bogus Program").1.mpr (by decide),
   (set_sound_program_validation (initialZone "MAIN") "Bogus Program").2.1 (by decide)⟩

/-- Claim C9 (confirmed): zone update dispatch is idempotent: if an update
succeeds, dispatching the same update again returns the same state. -/
theorem zone_update_idempotent (z : YncaZone) (f v : String) (z2 : YncaZone)
    (h : z.update f v = some z2) :
    z2.update f v = some z2 :=
  update_twice z f v z2 h

theorem zone_update_idempotent_witness :
    ({ initialZone "MAIN" with power := true } : YncaZone).update "PWR" "On"
      = some { initialZone "MAIN" with power := true } :=
  zone_update_idempotent (initialZone "MAIN") "PWR" "On" _ (by decide)

/-- Claim C10 (confirmed): after discovery has discarded the pending list, a
success event for a catalog zone identifier with no materialized Zone makes
the callback raise (append on the discarded list) instead of being dropped
or creating a zone. -/
theorem late_zone_probe_event_fails (r : YncaReceiver) (zid f v : String)
    (hzone : zid ∈ all_zones) (hmat : dictLookup r.zones zid = none)
    (hdrained : r.zones_to_init = none) :
    r.connection_update ⟨YncaProtocolStatus.ok, zid, f, v⟩ = none := by
  have hsys : ¬(zid = "SYS") := by
    intro hc
    rw [hc] at hzone
    exact absurd hzone (by decide)
  unfold YncaReceiver.connection_update
  rw [if_pos rfl, if_neg hsys]
  simp only [hmat]
  rw [if_pos hzone]
  simp only [hdrained]

theorem late_zone_probe_event_fails_witness :
    (drainZones initialReceiver).connection_update
        ⟨YncaProtocolStatus.ok, "ZONE3", "AVAIL", "Ready"⟩ = none :=
  late_zone_probe_event_fails (drainZones initialReceiver) "ZONE3" "AVAIL" "Ready"
    (by decide) (by decide) (by decide)
